import Mathlib

/-!
Verification of the lokinet `NodeDB` core (llarp/nodedb.cpp) against its
natural-language specification.

The C++ source is shallowly embedded as follows:

* `RouterID` (a fixed 32-byte public key) is a `List Nat` of byte values;
  byte-ness (`b < 256`) is a hypothesis where a theorem needs it.
* `RouterContact` keeps only the fields the NodeDB core observes through the
  contact's interface: the identity key, a last-updated stamp (for the
  freshness comparator), an expiry time, and the boolean results of
  signature verification and the network-membership check.
* `std::unordered_map<RouterID, Entry> entries` is an association list
  `List (RouterID × Entry)`; iteration order of the map is the list order
  (the C++ order is unspecified, so the list order is part of the model
  input).  `unordered_map::erase`/`emplace` become `eraseKey`/`emplace`.
* Times (`llarp_time_t`) are `Nat` milliseconds; the 5-minute flush
  interval is 300000 ms, and the "never flush" sentinel is `0`.
* Disk side effects are made explicit: every mutating operation returns the
  list of jobs it hands to the async disk offload (`disk(...)` in the C++).
* Queries are embedded as state transformers `NodeDB → result × NodeDB`
  transcribing the C++ (which only reads), so frame properties are statable.

Functions of the repository that are declared but whose definitions are not
part of the sources (RouterID::ToString, RouterContact::OtherIsNewer,
RouterContact::IsExpired, dht::XorMetric) are modelled from the spec; each
such definition carries a doc comment saying so.
-/

/-- A peer identifier: the fixed-length identity public key, as bytes. -/
abbrev RouterID := List Nat

/-- The slice of a router contact that the NodeDB core observes: identity
key, freshness stamp, expiry time, and the results of the signature and
network-membership checks supplied by the contact type. -/
structure RouterContact where
  pubkey : RouterID
  lastUpdated : Nat
  expiresAt : Nat
  sigOk : Bool
  onNetwork : Bool
deriving DecidableEq

/-- `NodeDB::Entry`: a contact paired with the wall-clock time it was
inserted into the table (`insertedAt = llarp::time_now_ms()` at
construction). -/
structure Entry where
  rc : RouterContact
  insertedAt : Nat
deriving DecidableEq

/-- A filesystem path, as its list of components (`m_Root / dir / fname`
appends components). -/
abbrev FsPath := List String

/-- A job handed to the async disk offload (`disk(...)` in the C++): either
one bulk write of contacts to their paths, or one batched multi-file
deletion. -/
inductive DiskJob where
  | writeBatch (files : List (FsPath × RouterContact))
  | deleteBatch (files : List FsPath)
deriving DecidableEq

/-- The NodeDB state the embedded operations touch: the archive root
`m_Root`, the in-memory table `entries`, and the flush deadline
`m_NextFlushAt` (0 is the "never flush" sentinel). -/
structure NodeDB where
  m_Root : FsPath
  entries : List (RouterID × Entry)
  m_NextFlushAt : Nat
deriving DecidableEq

/-- `RC_FILE_EXT = ".signed"`. -/
def RC_FILE_EXT : String := ".signed"

/-- `constexpr auto FlushInterval = 5min`, in milliseconds. -/
def FlushInterval : Nat := 300000

/-- Lowercase hex encoding of a byte list, as `oxenc::to_hex` produces it:
two hex characters per byte, high nibble first (`Nat.digitChar` yields
lowercase `a`–`f` for 10–15). -/
def hexChars (bytes : List Nat) : List Char :=
  bytes.flatMap fun b => [Nat.digitChar (b / 16 % 16), Nat.digitChar (b % 16)]

/-- Modelled from the spec: `RouterID::ToString` is not among the sources;
the spec fixes contact file names as the 64-hex-char identity key
("Each contact file is named `<64-hex-char-identity-key>.signed`"), so a
RouterID prints as its full lowercase hex encoding. -/
def RouterID.toStr (pk : RouterID) : String :=
  String.mk (hexChars pk)

/-- `NodeDB::get_path_by_pubkey`: hex-encode the key, shard by the first
character of the hex string, append the printed key plus `.signed`.
(`hexString[0]` on the empty string is the null character in C++; the model
uses `headD` with that default, and theorems assume a non-empty key.) -/
def NodeDB.get_path_by_pubkey (s : NodeDB) (pubkey : RouterID) : FsPath :=
  let hexString : List Char := hexChars pubkey
  let skiplistDir : String := String.mk [hexString.headD '\x00']
  let fname : String := RouterID.toStr pubkey ++ RC_FILE_EXT
  s.m_Root ++ [skiplistDir, fname]

/-- The shard path in the spec's words ("`<root>/<first-hex-nibble-of-id>/
<full-hex-id>.signed`"), for the refinement comparison with
`NodeDB.get_path_by_pubkey`. -/
def spec_path_for (root : FsPath) (id : RouterID) : FsPath :=
  root ++ [String.mk [Nat.digitChar (id.headD 0 / 16)],
           String.mk (hexChars id) ++ ".signed"]

/-- Modelled from the spec: `RouterContact::OtherIsNewer` is not among the
sources; the spec's freshness rule is "newer version/timestamp wins", so
`other` is newer than `self` exactly when its stamp is strictly larger. -/
def OtherIsNewer (self other : RouterContact) : Bool :=
  decide (self.lastUpdated < other.lastUpdated)

/-- Modelled from the spec: `RouterContact::IsExpired` is not among the
sources; a contact is expired once the current time has reached its expiry
time. -/
def IsExpired (rc : RouterContact) (now : Nat) : Bool :=
  decide (rc.expiresAt ≤ now)

/-- `PubKey::IsZero`: the key is all zero bytes. -/
def isZero (k : RouterID) : Bool :=
  k.all fun b => decide (b = 0)

/-- A default-constructed `RouterContact`: zero-filled identity key. -/
def emptyRC : RouterContact :=
  { pubkey := List.replicate 32 0, lastUpdated := 0, expiresAt := 0,
    sigOk := false, onNetwork := false }

/-- Modelled from the spec: `dht::XorMetric` (dht/kademlia.hpp) is not
among the sources; the spec defines distance as "their bitwise XOR
interpreted as an unsigned integer of the identifier's bit length", with
smaller closer.  Bytes are combined big-endian. -/
def dist (a b : RouterID) : Nat :=
  (List.zipWith (fun x y => Nat.xor x y) a b).foldl (fun acc v => acc * 256 + v) 0

/-- `unordered_map::find` on the association list: first entry with the key. -/
def findEntry : List (RouterID × Entry) → RouterID → Option Entry
  | [], _ => none
  | p :: rest, pk => if p.1 = pk then some p.2 else findEntry rest pk

/-- `unordered_map::erase(key)`: drop the entries carrying the key. -/
def eraseKey : List (RouterID × Entry) → RouterID → List (RouterID × Entry)
  | [], _ => []
  | p :: rest, pk => if p.1 = pk then eraseKey rest pk else p :: eraseKey rest pk

/-- `unordered_map::emplace`: insert only when the key is absent. -/
def emplace (tbl : List (RouterID × Entry)) (pk : RouterID) (e : Entry) :
    List (RouterID × Entry) :=
  if (findEntry tbl pk).isSome then tbl else tbl ++ [(pk, e)]

/-- `NodeDB::put_rc` (run inside the serialized gate): erase any entry for
the contact's key, then emplace the contact with a fresh insertion
timestamp `now`. -/
def put_rc (entries : List (RouterID × Entry)) (rc : RouterContact) (now : Nat) :
    List (RouterID × Entry) :=
  eraseKey entries rc.pubkey ++ [(rc.pubkey, ⟨rc, now⟩)]

/-- `NodeDB::put_rc_if_newer`: admit the contact only when no entry exists
for its key or the existing contact's `OtherIsNewer(rc)` holds (the
incoming contact is strictly newer); otherwise leave the table unchanged. -/
def put_rc_if_newer (entries : List (RouterID × Entry)) (rc : RouterContact)
    (now : Nat) : List (RouterID × Entry) :=
  match findEntry entries rc.pubkey with
  | none => entries ++ [(rc.pubkey, ⟨rc, now⟩)]
  | some e =>
    if OtherIsNewer e.rc rc then
      eraseKey entries rc.pubkey ++ [(rc.pubkey, ⟨rc, now⟩)]
    else
      entries

/-- `NodeDB::remove_many_from_disk_async`: nothing to do when the root path
is empty; otherwise map every identifier to its shard path and hand the
disk thread one batched deletion job.  (The C++ collects the paths into a
`std::set`; the model keeps them in input order, which no claim observes.) -/
def NodeDB.remove_many_from_disk_async (s : NodeDB) (remove : List RouterID) :
    List DiskJob :=
  if s.m_Root = [] then []
  else [DiskJob.deleteBatch (remove.map s.get_path_by_pubkey)]

/-- `NodeDB::remove_router`: erase the key from the table (whether or not
present) and unconditionally call `remove_many_from_disk_async({pk})`. -/
def NodeDB.remove_router (s : NodeDB) (pk : RouterID) : NodeDB × List DiskJob :=
  ({ s with entries := eraseKey s.entries pk }, s.remove_many_from_disk_async [pk])

/-- The erase loop of `NodeDB::remove_stale_rcs`: walk the table, dropping
every entry whose insertion time is strictly before `cutoff` and whose
contact's key is not in `keep`, collecting the dropped keys. -/
def staleLoop : List (RouterID × Entry) → List RouterID → Nat →
    List (RouterID × Entry) × List RouterID
  | [], _, _ => ([], [])
  | p :: rest, keep, cutoff =>
    let r := staleLoop rest keep cutoff
    if p.2.insertedAt < cutoff ∧ p.2.rc.pubkey ∉ keep then
      (r.1, p.2.rc.pubkey :: r.2)
    else
      (p :: r.1, r.2)

/-- `NodeDB::remove_stale_rcs`: run the erase loop; when it removed
anything, hand the removed identifiers to `remove_many_from_disk_async`. -/
def NodeDB.remove_stale_rcs (s : NodeDB) (keep : List RouterID) (cutoff : Nat) :
    NodeDB × List DiskJob :=
  let r := staleLoop s.entries keep cutoff
  ({ s with entries := r.1 },
   if r.2 = [] then [] else s.remove_many_from_disk_async r.2)

/-- `NodeDB::Tick`: no-op on the sentinel deadline 0; once `now` has passed
the deadline, advance it by exactly one `FlushInterval` and hand the disk
thread one bulk job writing a full snapshot of the table. -/
def NodeDB.Tick (s : NodeDB) (now : Nat) : NodeDB × List DiskJob :=
  if s.m_NextFlushAt = 0 then (s, [])
  else if s.m_NextFlushAt < now then
    ({ s with m_NextFlushAt := s.m_NextFlushAt + FlushInterval },
     [DiskJob.writeBatch
        (s.entries.map fun p => (s.get_path_by_pubkey p.2.rc.pubkey, p.2.rc))])
  else (s, [])

/-- A sequence of `Tick` calls, accumulating every enqueued disk job. -/
def tickSeq (s : NodeDB) (nows : List Nat) : NodeDB × List DiskJob :=
  nows.foldl (fun acc now =>
    let r := NodeDB.Tick acc.1 now
    (r.1, acc.2 ++ r.2)) (s, [])

/-- `NodeDB::has_router`, embedded as a state transformer (the C++ only
reads the table inside the gate). -/
def NodeDB.has_router (s : NodeDB) (pk : RouterID) : Bool × NodeDB :=
  ((findEntry s.entries pk).isSome, s)

/-- `NodeDB::get_rc`: copy out the stored contact when present. -/
def NodeDB.get_rc (s : NodeDB) (pk : RouterID) : Option RouterContact × NodeDB :=
  (match findEntry s.entries pk with
   | none => none
   | some e => some e.rc, s)

/-- `NodeDB::num_loaded`: the table size. -/
def NodeDB.num_loaded (s : NodeDB) : Nat × NodeDB :=
  (s.entries.length, s)

/-- The visitor body of `NodeDB::find_closest_to`: keep the first visited
contact while the accumulator's key is all-zero (`rc.pubkey.IsZero()`),
afterwards take a visited contact exactly when it is strictly closer to
`location` under the XOR metric. -/
def closestStep (location : RouterID) (rc : RouterContact)
    (p : RouterID × Entry) : RouterContact :=
  if isZero rc.pubkey then p.2.rc
  else if dist location p.2.rc.pubkey < dist location rc.pubkey then p.2.rc
  else rc

/-- `NodeDB::find_closest_to`: start from a default-constructed contact and
visit every entry with `closestStep`. -/
def NodeDB.find_closest_to (s : NodeDB) (location : RouterID) :
    RouterContact × NodeDB :=
  (s.entries.foldl (closestStep location) emptyRC, s)

/-- Closeness to a location, the order `find_many_closest_to` sorts by. -/
def rcLe (location : RouterID) (a b : RouterContact) : Prop :=
  dist location a.pubkey ≤ dist location b.pubkey

instance (location : RouterID) : DecidableRel (rcLe location) :=
  fun a b => Nat.decLe (dist location a.pubkey) (dist location b.pubkey)

/-- `NodeDB::find_many_closest_to`: `std::partial_sort` the contacts by
distance to `location` and return the first `numRouters` (all of them when
fewer exist).  The partial sort is modelled as a total sort followed by
`take`; the properties proved of it are exactly the guarantees
`std::partial_sort` gives. -/
def NodeDB.find_many_closest_to (s : NodeDB) (location : RouterID)
    (numRouters : Nat) : List RouterContact × NodeDB :=
  ((List.insertionSort (rcLe location) (s.entries.map fun p => p.2.rc)).take
     numRouters, s)

/-- The outcome of the disk loader for one candidate file. -/
inductive FileOutcome where
  | purge
  | skip
  | admitted (rc : RouterContact)
deriving DecidableEq

/-- A candidate contact file: its path, and the result of decoding its
bytes into a contact (`none` when `rc.Read(f)` fails). -/
structure DiskFile where
  path : FsPath
  content : Option RouterContact
deriving DecidableEq

/-- The per-file decision of `NodeDB::load_from_disk`, in the order the C++
checks: decode failure → purge; foreign network → skip (leave on disk);
expired → purge; valid signature → admit; otherwise → purge. -/
def load_file (content : Option RouterContact) (now : Nat) : FileOutcome :=
  match content with
  | none => FileOutcome.purge
  | some rc =>
    if rc.onNetwork = false then FileOutcome.skip
    else if IsExpired rc now then FileOutcome.purge
    else if rc.sigOk then FileOutcome.admitted rc
    else FileOutcome.purge

/-- The scan loop of `load_from_disk`: process each candidate file in
order, admitting via `emplace` and collecting the paths marked for purge. -/
def loadLoop (acc : List (RouterID × Entry) × List FsPath) :
    List DiskFile → Nat → List (RouterID × Entry) × List FsPath
  | [], _ => acc
  | f :: rest, now =>
    match load_file f.content now with
    | FileOutcome.purge => loadLoop (acc.1, acc.2 ++ [f.path]) rest now
    | FileOutcome.skip => loadLoop acc rest now
    | FileOutcome.admitted rc =>
      loadLoop (emplace acc.1 rc.pubkey ⟨rc, now⟩, acc.2) rest now

/-- `NodeDB::load_from_disk` over the candidate files found under the
shards: the admitted table and the paths purged afterwards.  (The C++
collects purge paths into a `std::set` before deleting; the model keeps
scan order, which no claim observes.  `now` models `time_now_ms()` held
constant over the startup scan.) -/
def load_from_disk (files : List DiskFile) (now : Nat) :
    List (RouterID × Entry) × List FsPath :=
  loadLoop ([], []) files now

/-! ### Association-list lemmas for the table embedding -/

theorem findEntry_append_of_none {l₁ : List (RouterID × Entry)}
    {pk : RouterID} (l₂ : List (RouterID × Entry))
    (h : findEntry l₁ pk = none) :
    findEntry (l₁ ++ l₂) pk = findEntry l₂ pk := by
  induction l₁ with
  | nil => simp
  | cons p rest ih =>
    simp only [findEntry] at h
    by_cases hp : p.1 = pk
    · rw [if_pos hp] at h
      cases h
    · rw [if_neg hp] at h
      rw [List.cons_append]
      simp only [findEntry, if_neg hp]
      exact ih h

theorem findEntry_append_of_some {l₁ : List (RouterID × Entry)}
    {pk : RouterID} {e : Entry} (l₂ : List (RouterID × Entry))
    (h : findEntry l₁ pk = some e) :
    findEntry (l₁ ++ l₂) pk = some e := by
  induction l₁ with
  | nil => simp [findEntry] at h
  | cons p rest ih =>
    by_cases hp : p.1 = pk
    · simp only [findEntry, if_pos hp] at h
      rw [List.cons_append]
      simp only [findEntry, if_pos hp]
      exact h
    · simp only [findEntry, if_neg hp] at h
      rw [List.cons_append]
      simp only [findEntry, if_neg hp]
      exact ih h

theorem findEntry_eraseKey_self (l : List (RouterID × Entry)) (pk : RouterID) :
    findEntry (eraseKey l pk) pk = none := by
  induction l with
  | nil => simp [eraseKey, findEntry]
  | cons p rest ih =>
    by_cases hp : p.1 = pk
    · simp [eraseKey, if_pos hp, ih]
    · simp [eraseKey, findEntry, if_neg hp, ih]

theorem findEntry_eraseKey_ne {k pk : RouterID} (l : List (RouterID × Entry))
    (h : k ≠ pk) :
    findEntry (eraseKey l pk) k = findEntry l k := by
  induction l with
  | nil => simp [eraseKey]
  | cons p rest ih =>
    by_cases hp : p.1 = pk
    · have hk : p.1 ≠ k := by rw [hp]; exact fun hc => h hc.symm
      simp [eraseKey, findEntry, if_pos hp, if_neg hk, ih]
    · simp only [eraseKey, if_neg hp, findEntry]
      by_cases hk : p.1 = k
      · simp [if_pos hk]
      · simp [if_neg hk, ih]

theorem eraseKey_eraseKey (l : List (RouterID × Entry)) (pk : RouterID) :
    eraseKey (eraseKey l pk) pk = eraseKey l pk := by
  induction l with
  | nil => simp [eraseKey]
  | cons p rest ih =>
    by_cases hp : p.1 = pk
    · simp [eraseKey, if_pos hp, ih]
    · simp [eraseKey, if_neg hp, ih]

/-- Claim C1: `path_for(id)` is deterministic — it depends only on the
archive root, never on the table contents or the flush state — and equals
`<root>/<first-hex-nibble-of-id>/<full-hex-id>.signed`: the shard directory
is the identifier's first lowercase hex character and the file name is the
identifier's full hex encoding followed by ".signed".  (Determinism over
repeated calls is definitional: the embedding is a pure function of the
root and the identifier.) -/
theorem C1_get_path_by_pubkey_spec (s s' : NodeDB) (pk : RouterID)
    (hroot : s.m_Root = s'.m_Root) (hne : pk ≠ [])
    (hbytes : ∀ b ∈ pk, b < 256) :
    s.get_path_by_pubkey pk = s'.get_path_by_pubkey pk ∧
    s.get_path_by_pubkey pk = spec_path_for s.m_Root pk := by
  constructor
  · simp [NodeDB.get_path_by_pubkey, hroot]
  · cases pk with
    | nil => exact absurd rfl hne
    | cons b rest =>
      have hb : b < 256 := hbytes b (List.mem_cons_self b rest)
      have h16 : b / 16 < 16 := by omega
      simp [NodeDB.get_path_by_pubkey, spec_path_for, hexChars,
        RouterID.toStr, RC_FILE_EXT, Nat.mod_eq_of_lt h16]

/-- Witness for C1 at a concrete 32-byte identifier and root. -/
theorem C1_witness :
    (NodeDB.mk ["root"] [] 0).get_path_by_pubkey (List.range 32) =
      spec_path_for ["root"] (List.range 32) :=
  (C1_get_path_by_pubkey_spec (NodeDB.mk ["root"] [] 0)
    (NodeDB.mk ["root"] [] 0) (List.range 32) rfl (by decide) (by decide)).2

/-- Claim C9: `put(contact)` unconditionally replaces any existing entry
for the same identity: afterwards the table maps the contact's key to the
new contact paired with the fresh insertion timestamp of the call, and
every other key is mapped exactly as before. -/
theorem C9_put_rc_replaces (l : List (RouterID × Entry)) (rc : RouterContact)
    (now : Nat) :
    findEntry (put_rc l rc now) rc.pubkey = some ⟨rc, now⟩ ∧
    ∀ k, k ≠ rc.pubkey → findEntry (put_rc l rc now) k = findEntry l k := by
  constructor
  · rw [put_rc, findEntry_append_of_none _ (findEntry_eraseKey_self l rc.pubkey)]
    simp [findEntry]
  · intro k hk
    rw [put_rc]
    cases hfind : findEntry (eraseKey l rc.pubkey) k with
    | none =>
      rw [findEntry_append_of_none _ hfind]
      rw [findEntry_eraseKey_ne l hk] at hfind
      have hne : rc.pubkey ≠ k := fun h => hk h.symm
      simp [findEntry, hne, hfind]
    | some e =>
      rw [findEntry_append_of_some _ hfind]
      rw [findEntry_eraseKey_ne l hk] at hfind
      exact hfind.symm

/-- Witness for C9: replacing an existing entry at a concrete table. -/
theorem C9_witness :
    findEntry
        (put_rc [(List.replicate 32 7, ⟨⟨List.replicate 32 7, 1, 50, true, true⟩, 3⟩)]
          ⟨List.replicate 32 7, 9, 80, true, true⟩ 11)
        (List.replicate 32 7) =
      some ⟨⟨List.replicate 32 7, 9, 80, true, true⟩, 11⟩ ∧
    findEntry
        (put_rc [(List.replicate 32 7, ⟨⟨List.replicate 32 7, 1, 50, true, true⟩, 3⟩)]
          ⟨List.replicate 32 7, 9, 80, true, true⟩ 11)
        (List.replicate 32 8) =
      findEntry [(List.replicate 32 7, ⟨⟨List.replicate 32 7, 1, 50, true, true⟩, 3⟩)]
        (List.replicate 32 8) :=
  ⟨(C9_put_rc_replaces _ _ _).1,
   (C9_put_rc_replaces _ _ _).2 (List.replicate 32 8) (by decide)⟩

theorem findEntry_put_rc_self (l : List (RouterID × Entry)) (rc : RouterContact)
    (now : Nat) :
    findEntry (put_rc l rc now) rc.pubkey = some ⟨rc, now⟩ := by
  rw [put_rc, findEntry_append_of_none _ (findEntry_eraseKey_self l rc.pubkey)]
  simp [findEntry]

theorem findEntry_put_rc_ne {k : RouterID} (l : List (RouterID × Entry))
    (rc : RouterContact) (now : Nat) (hk : k ≠ rc.pubkey) :
    findEntry (put_rc l rc now) k = findEntry l k := by
  rw [put_rc]
  cases hfind : findEntry (eraseKey l rc.pubkey) k with
  | none =>
    rw [findEntry_append_of_none _ hfind]
    rw [findEntry_eraseKey_ne l hk] at hfind
    have hne : rc.pubkey ≠ k := fun h => hk h.symm
    simp [findEntry, hne, hfind]
  | some e =>
    rw [findEntry_append_of_some _ hfind]
    rw [findEntry_eraseKey_ne l hk] at hfind
    exact hfind.symm

/-- Claim C2 as stated is false on the code: at a freshness tie the
existing contact is *not* newer than the incoming one, yet
`put_rc_if_newer` rejects the incoming contact (it admits only on
`OtherIsNewer`, i.e. strictly newer).  Concretely, with two distinct
contacts A and B for the same identity carrying the same freshness stamp,
after `put(B)` the call `put_if_newer(A)` leaves B stored even though B is
not newer than A. -/
theorem C2_counterexample :
    (⟨List.replicate 32 2, 5, 20, true, true⟩ : RouterContact).lastUpdated ≤
      (⟨List.replicate 32 2, 5, 10, true, true⟩ : RouterContact).lastUpdated ∧
    findEntry (put_rc [] ⟨List.replicate 32 2, 5, 20, true, true⟩ 3)
        (List.replicate 32 2) =
      some ⟨⟨List.replicate 32 2, 5, 20, true, true⟩, 3⟩ ∧
    put_rc_if_newer (put_rc [] ⟨List.replicate 32 2, 5, 20, true, true⟩ 3)
        ⟨List.replicate 32 2, 5, 10, true, true⟩ 7 =
      put_rc [] ⟨List.replicate 32 2, 5, 20, true, true⟩ 3 ∧
    (⟨List.replicate 32 2, 5, 10, true, true⟩ : RouterContact) ≠
      ⟨List.replicate 32 2, 5, 20, true, true⟩ := by
  decide

/-- Claim C2, amended: `put_if_newer(contact)` admits the incoming contact
(replacing any existing entry for the same identity, with a fresh
insertion timestamp) if and only if either no entry exists for that
identity, or the incoming contact is *strictly newer* than the existing
entry's contact per the freshness comparator (`OtherIsNewer`); in every
other case — including a freshness tie — the table is left unchanged.
Entries for other identities are never touched.  In particular, after
`put(A)` then `put_if_newer(B)` with B strictly newer than A, B is stored;
after `put(B)` then `put_if_newer(A)`, B is still stored. -/
theorem C2_put_rc_if_newer_strict (l : List (RouterID × Entry))
    (rc : RouterContact) (now : Nat) :
    (findEntry l rc.pubkey = none →
      findEntry (put_rc_if_newer l rc now) rc.pubkey = some ⟨rc, now⟩) ∧
    (∀ e, findEntry l rc.pubkey = some e → OtherIsNewer e.rc rc = true →
      findEntry (put_rc_if_newer l rc now) rc.pubkey = some ⟨rc, now⟩) ∧
    (∀ e, findEntry l rc.pubkey = some e → OtherIsNewer e.rc rc = false →
      put_rc_if_newer l rc now = l) ∧
    (∀ k, k ≠ rc.pubkey →
      findEntry (put_rc_if_newer l rc now) k = findEntry l k) ∧
    (∀ (a b : RouterContact) (na nb : Nat), a.pubkey = b.pubkey →
      OtherIsNewer a b = true →
      findEntry (put_rc_if_newer (put_rc l a na) b nb) b.pubkey =
        some ⟨b, nb⟩ ∧
      findEntry (put_rc_if_newer (put_rc l b nb) a na) a.pubkey =
        some ⟨b, nb⟩) := by
  refine ⟨?_, ?_, ?_, ?_, ?_⟩
  · intro h
    rw [put_rc_if_newer, h]
    rw [findEntry_append_of_none _ h]
    simp [findEntry]
  · intro e he hnew
    rw [put_rc_if_newer, he]
    simp only [hnew, if_true]
    exact findEntry_put_rc_self l rc now
  · intro e he hnew
    rw [put_rc_if_newer, he]
    simp [hnew]
  · intro k hk
    rw [put_rc_if_newer]
    cases he : findEntry l rc.pubkey with
    | none =>
      cases hfind : findEntry l k with
      | none =>
        rw [findEntry_append_of_none _ hfind]
        have hne : rc.pubkey ≠ k := fun h => hk h.symm
        simp [findEntry, hne, hfind]
      | some e' =>
        rw [findEntry_append_of_some _ hfind]
    | some e =>
      by_cases hnew : OtherIsNewer e.rc rc = true
      · simp only [hnew, if_true]
        exact findEntry_put_rc_ne l rc now hk
      · simp only [Bool.not_eq_true] at hnew
        simp [hnew]
  · intro a b na nb hpk hnew
    constructor
    · have hfind : findEntry (put_rc l a na) b.pubkey = some ⟨a, na⟩ := by
        rw [← hpk]
        exact findEntry_put_rc_self l a na
      rw [put_rc_if_newer, hfind]
      simp only [hnew, if_true]
      exact findEntry_put_rc_self (put_rc l a na) b nb
    · have hfind : findEntry (put_rc l b nb) a.pubkey = some ⟨b, nb⟩ := by
        rw [hpk]
        exact findEntry_put_rc_self l b nb
      have hnot : OtherIsNewer b a = false := by
        simp only [OtherIsNewer, decide_eq_true_eq] at hnew
        simp only [OtherIsNewer, decide_eq_false_iff_not]
        omega
      rw [put_rc_if_newer, hfind]
      simp only [hnot, Bool.false_eq_true, if_false]
      rw [hpk]
      exact findEntry_put_rc_self l b nb

/-- Witness for the amended C2 at two concrete contacts where B is strictly
newer than A: both orders of insertion leave B stored. -/
theorem C2_witness :
    findEntry
        (put_rc_if_newer (put_rc [] ⟨List.replicate 32 3, 1, 10, true, true⟩ 1)
          ⟨List.replicate 32 3, 2, 20, true, true⟩ 2)
        (List.replicate 32 3) =
      some ⟨⟨List.replicate 32 3, 2, 20, true, true⟩, 2⟩ ∧
    findEntry
        (put_rc_if_newer (put_rc [] ⟨List.replicate 32 3, 2, 20, true, true⟩ 2)
          ⟨List.replicate 32 3, 1, 10, true, true⟩ 1)
        (List.replicate 32 3) =
      some ⟨⟨List.replicate 32 3, 2, 20, true, true⟩, 2⟩ :=
  (C2_put_rc_if_newer_strict [] ⟨List.replicate 32 3, 1, 10, true, true⟩ 0).2.2.2.2
    ⟨List.replicate 32 3, 1, 10, true, true⟩
    ⟨List.replicate 32 3, 2, 20, true, true⟩ 1 2 rfl (by decide)

/-- Claim C10: every query — `has_router`, `get_rc`, `num_loaded`,
`find_closest_to`, `find_many_closest_to` — leaves the NodeDB state
unchanged, and `get_rc` returns the stored contact exactly when
`has_router` holds, and nothing otherwise. -/
theorem C10_queries_pure (s : NodeDB) (pk location : RouterID) (k : Nat) :
    (s.has_router pk).2 = s ∧
    (s.get_rc pk).2 = s ∧
    s.num_loaded.2 = s ∧
    (s.find_closest_to location).2 = s ∧
    (s.find_many_closest_to location k).2 = s ∧
    ((s.has_router pk).1 = true ↔ ∃ rc, (s.get_rc pk).1 = some rc) ∧
    (∀ e, findEntry s.entries pk = some e → (s.get_rc pk).1 = some e.rc) ∧
    ((s.has_router pk).1 = false → (s.get_rc pk).1 = none) := by
  refine ⟨rfl, rfl, rfl, rfl, rfl, ?_, ?_, ?_⟩
  · cases h : findEntry s.entries pk with
    | none => simp [NodeDB.has_router, NodeDB.get_rc, h]
    | some e => simp [NodeDB.has_router, NodeDB.get_rc, h]
  · intro e he
    simp [NodeDB.get_rc, he]
  · cases h : findEntry s.entries pk with
    | none => simp [NodeDB.has_router, NodeDB.get_rc, h]
    | some e => simp [NodeDB.has_router, h]

/-- Witness for C10 at a concrete one-entry table. -/
theorem C10_witness :
    ((NodeDB.mk ["r"]
        [(List.replicate 32 4, ⟨⟨List.replicate 32 4, 1, 9, true, true⟩, 3⟩)]
        0).get_rc (List.replicate 32 4)).1 =
      some ⟨List.replicate 32 4, 1, 9, true, true⟩ :=
  (C10_queries_pure
      (NodeDB.mk ["r"]
        [(List.replicate 32 4, ⟨⟨List.replicate 32 4, 1, 9, true, true⟩, 3⟩)]
        0)
      (List.replicate 32 4) [] 0).2.2.2.2.2.2.1
    ⟨⟨List.replicate 32 4, 1, 9, true, true⟩, 3⟩ (by decide)

theorem tickSeq_disabled_aux (nows : List Nat) (s : NodeDB) (acc : List DiskJob)
    (h : s.m_NextFlushAt = 0) :
    nows.foldl (fun a now =>
      let r := NodeDB.Tick a.1 now
      (r.1, a.2 ++ r.2)) (s, acc) = (s, acc) := by
  induction nows generalizing acc with
  | nil => rfl
  | cons n rest ih =>
    have ht : NodeDB.Tick s n = (s, []) := by
      simp [NodeDB.Tick, h]
    simp only [List.foldl_cons, ht]
    simpa using ih acc

/-- Claim C5: with flushing disabled via the sentinel deadline (0), any
sequence of `Tick` calls enqueues no disk job and leaves the state intact;
with flushing enabled and `now` past the deadline, a single `Tick` call
enqueues exactly one bulk write job covering a full snapshot of the table
and advances the deadline by exactly one 5-minute interval (never more,
however many intervals elapsed); before the deadline it does nothing. -/
theorem C5_tick_flush_gating (s : NodeDB) (now : Nat) (nows : List Nat) :
    (s.m_NextFlushAt = 0 → tickSeq s nows = (s, [])) ∧
    (s.m_NextFlushAt ≠ 0 → s.m_NextFlushAt < now →
      s.Tick now =
        ({ s with m_NextFlushAt := s.m_NextFlushAt + FlushInterval },
         [DiskJob.writeBatch
            (s.entries.map fun p => (s.get_path_by_pubkey p.2.rc.pubkey, p.2.rc))])) ∧
    (s.m_NextFlushAt ≠ 0 → ¬ s.m_NextFlushAt < now → s.Tick now = (s, [])) := by
  refine ⟨?_, ?_, ?_⟩
  · intro h
    exact tickSeq_disabled_aux nows s [] h
  · intro h hlt
    simp [NodeDB.Tick, h, hlt]
  · intro h hlt
    simp [NodeDB.Tick, h, hlt]

/-- Witness for C5: a disabled state ticks thrice with no job; an enabled
state past its deadline flushes its one-entry snapshot once. -/
theorem C5_witness :
    tickSeq (NodeDB.mk ["r"] [] 0) [400000, 800000, 1200000] =
      (NodeDB.mk ["r"] [] 0, []) ∧
    NodeDB.Tick
        (NodeDB.mk ["r"]
          [(List.replicate 32 6, ⟨⟨List.replicate 32 6, 1, 9, true, true⟩, 2⟩)]
          300000) 300001 =
      (NodeDB.mk ["r"]
        [(List.replicate 32 6, ⟨⟨List.replicate 32 6, 1, 9, true, true⟩, 2⟩)]
        600000,
       [DiskJob.writeBatch
          [((NodeDB.mk ["r"]
              [(List.replicate 32 6, ⟨⟨List.replicate 32 6, 1, 9, true, true⟩, 2⟩)]
              300000).get_path_by_pubkey (List.replicate 32 6),
            ⟨List.replicate 32 6, 1, 9, true, true⟩)]]) :=
  ⟨(C5_tick_flush_gating (NodeDB.mk ["r"] [] 0) 0 [400000, 800000, 1200000]).1 rfl,
   (C5_tick_flush_gating
      (NodeDB.mk ["r"]
        [(List.replicate 32 6, ⟨⟨List.replicate 32 6, 1, 9, true, true⟩, 2⟩)]
        300000) 300001 []).2.1 (by decide) (by decide)⟩

/-- Claim C8 as stated is false on the code: with an empty archive root,
`remove_router` enqueues no deletion job at all — the claim's "always
enqueues an async deletion of id's backing file" fails —
even though the in-memory entry is removed.  (`remove_many_from_disk_async`
returns immediately when `m_Root.empty()`.) -/
theorem C8_counterexample :
    (NodeDB.remove_router
        (NodeDB.mk []
          [(List.replicate 32 5, ⟨⟨List.replicate 32 5, 1, 9, true, true⟩, 2⟩)]
          0)
        (List.replicate 32 5)).2 = [] ∧
    findEntry
        (NodeDB.remove_router
          (NodeDB.mk []
            [(List.replicate 32 5, ⟨⟨List.replicate 32 5, 1, 9, true, true⟩, 2⟩)]
            0)
          (List.replicate 32 5)).1.entries (List.replicate 32 5) = none := by
  decide

/-- Claim C8, amended: `remove(id)` is idempotent and total on the key: for
every table state and identifier — present, absent, or just removed — the
call never signals an error, always leaves the table without an entry for
`id` (entries for other keys untouched), and, whenever the archive root is
nonempty, enqueues an async deletion of id's backing file regardless of
whether id was present in memory; with an empty root (disk persistence
disabled) the disk step is skipped. -/
theorem C8_remove_router_idempotent (s : NodeDB) (pk : RouterID) :
    findEntry (s.remove_router pk).1.entries pk = none ∧
    (∀ k, k ≠ pk → findEntry (s.remove_router pk).1.entries k =
      findEntry s.entries k) ∧
    ((s.remove_router pk).1.remove_router pk).1 = (s.remove_router pk).1 ∧
    ((s.remove_router pk).1.remove_router pk).2 = (s.remove_router pk).2 ∧
    (s.m_Root ≠ [] →
      (s.remove_router pk).2 = [DiskJob.deleteBatch [s.get_path_by_pubkey pk]]) ∧
    (s.m_Root = [] → (s.remove_router pk).2 = []) ∧
    (s.remove_router pk).1.m_Root = s.m_Root ∧
    (s.remove_router pk).1.m_NextFlushAt = s.m_NextFlushAt := by
  refine ⟨findEntry_eraseKey_self s.entries pk,
    fun k hk => findEntry_eraseKey_ne s.entries hk, ?_, rfl, ?_, ?_, rfl, rfl⟩
  · simp [NodeDB.remove_router, eraseKey_eraseKey]
  · intro h
    simp [NodeDB.remove_router, NodeDB.remove_many_from_disk_async, h]
  · intro h
    simp [NodeDB.remove_router, NodeDB.remove_many_from_disk_async, h]

/-- Witness for the amended C8: removing an absent identifier from a
nonempty-root state still enqueues the single-file deletion job. -/
theorem C8_witness :
    (NodeDB.remove_router (NodeDB.mk ["r"] [] 0) (List.replicate 32 5)).2 =
      [DiskJob.deleteBatch
        [(NodeDB.mk ["r"] [] 0).get_path_by_pubkey (List.replicate 32 5)]] :=
  (C8_remove_router_idempotent (NodeDB.mk ["r"] [] 0)
    (List.replicate 32 5)).2.2.2.2.1 (by decide)

theorem staleLoop_spec (l : List (RouterID × Entry)) (keep : List RouterID)
    (cutoff : Nat) :
    (staleLoop l keep cutoff).1 =
      l.filter
        (fun p => !(decide (p.2.insertedAt < cutoff ∧ p.2.rc.pubkey ∉ keep))) ∧
    (staleLoop l keep cutoff).2 =
      (l.filter
        (fun p => decide (p.2.insertedAt < cutoff ∧ p.2.rc.pubkey ∉ keep))).map
        (fun p => p.2.rc.pubkey) := by
  induction l with
  | nil => exact ⟨rfl, rfl⟩
  | cons p rest ih =>
    by_cases hc : p.2.insertedAt < cutoff ∧ p.2.rc.pubkey ∉ keep
    · simp [staleLoop, hc, List.filter_cons, ih.1, ih.2]
    · have h' : cutoff ≤ p.2.insertedAt ∨ p.2.rc.pubkey ∈ keep := by
        by_cases hA : p.2.insertedAt < cutoff
        · right
          by_contra hB
          exact hc ⟨hA, hB⟩
        · left
          omega
      simp [staleLoop, hc, List.filter_cons, ih.1, ih.2, h']

/-- Claim C4 as stated is false on the code: when the archive root is
empty, a prune pass that does remove entries hands *no* job to the async
disk offload (`remove_many_from_disk_async` returns immediately on an
empty root), while the claim demands a batched deletion job whenever at
least one entry is removed.  Concretely: an empty-root state with one
stale entry is emptied, yet the job list is empty. -/
theorem C4_counterexample :
    (NodeDB.remove_stale_rcs
        (NodeDB.mk []
          [(List.replicate 32 9, ⟨⟨List.replicate 32 9, 1, 99, true, true⟩, 1⟩)]
          0) [] 5).1.entries = [] ∧
    (NodeDB.remove_stale_rcs
        (NodeDB.mk []
          [(List.replicate 32 9, ⟨⟨List.replicate 32 9, 1, 99, true, true⟩, 1⟩)]
          0) [] 5).2 = [] := by
  decide

/-- Claim C4, amended: `prune_stale(keep_set, cutoff)` removes exactly
those entries whose insertion time is strictly before `cutoff` and whose
identity is not in `keep_set` — every other entry survives unchanged — and,
when at least one entry is removed *and the archive root is nonempty*, the
removed identities are handed to the async disk offload as a single
batched multi-file deletion job (with an empty root the disk step is
skipped; when nothing is removed no job is enqueued). -/
theorem C4_remove_stale_rcs (s : NodeDB) (keep : List RouterID) (cutoff : Nat) :
    (s.remove_stale_rcs keep cutoff).1.entries =
      s.entries.filter
        (fun p => !(decide (p.2.insertedAt < cutoff ∧ p.2.rc.pubkey ∉ keep))) ∧
    (s.remove_stale_rcs keep cutoff).1.m_Root = s.m_Root ∧
    (s.remove_stale_rcs keep cutoff).1.m_NextFlushAt = s.m_NextFlushAt ∧
    (staleLoop s.entries keep cutoff).2 =
      (s.entries.filter
        (fun p => decide (p.2.insertedAt < cutoff ∧ p.2.rc.pubkey ∉ keep))).map
        (fun p => p.2.rc.pubkey) ∧
    ((staleLoop s.entries keep cutoff).2 = [] →
      (s.remove_stale_rcs keep cutoff).2 = []) ∧
    ((staleLoop s.entries keep cutoff).2 ≠ [] → s.m_Root ≠ [] →
      (s.remove_stale_rcs keep cutoff).2 =
        [DiskJob.deleteBatch
          ((staleLoop s.entries keep cutoff).2.map s.get_path_by_pubkey)]) ∧
    (s.m_Root = [] → (s.remove_stale_rcs keep cutoff).2 = []) := by
  refine ⟨(staleLoop_spec s.entries keep cutoff).1, rfl, rfl,
    (staleLoop_spec s.entries keep cutoff).2, ?_, ?_, ?_⟩
  · intro h
    simp [NodeDB.remove_stale_rcs, h]
  · intro h hroot
    simp [NodeDB.remove_stale_rcs, h, NodeDB.remove_many_from_disk_async, hroot]
  · intro h
    by_cases hrem : (staleLoop s.entries keep cutoff).2 = []
    · simp [NodeDB.remove_stale_rcs, hrem]
    · simp [NodeDB.remove_stale_rcs, hrem, NodeDB.remove_many_from_disk_async, h]

/-- Witness for the amended C4 at a concrete state: entries inserted at
times 1 and 9 with cutoff 5; only the stale one not in the keep set is
removed, and one batched deletion job is enqueued. -/
theorem C4_witness :
    (NodeDB.remove_stale_rcs
        (NodeDB.mk ["r"]
          [(List.replicate 32 9, ⟨⟨List.replicate 32 9, 1, 99, true, true⟩, 1⟩),
           (List.replicate 32 8, ⟨⟨List.replicate 32 8, 1, 99, true, true⟩, 9⟩)]
          0) [] 5).1.entries =
      List.filter
        (fun p => !(decide (p.2.insertedAt < 5 ∧ p.2.rc.pubkey ∉ ([] : List RouterID))))
        [(List.replicate 32 9, ⟨⟨List.replicate 32 9, 1, 99, true, true⟩, 1⟩),
         (List.replicate 32 8, ⟨⟨List.replicate 32 8, 1, 99, true, true⟩, 9⟩)] ∧
    (NodeDB.remove_stale_rcs
        (NodeDB.mk ["r"]
          [(List.replicate 32 9, ⟨⟨List.replicate 32 9, 1, 99, true, true⟩, 1⟩),
           (List.replicate 32 8, ⟨⟨List.replicate 32 8, 1, 99, true, true⟩, 9⟩)]
          0) [] 5).2 =
      [DiskJob.deleteBatch
        ((staleLoop
            [(List.replicate 32 9, ⟨⟨List.replicate 32 9, 1, 99, true, true⟩, 1⟩),
             (List.replicate 32 8, ⟨⟨List.replicate 32 8, 1, 99, true, true⟩, 9⟩)]
            [] 5).2.map
          (NodeDB.mk ["r"]
            [(List.replicate 32 9, ⟨⟨List.replicate 32 9, 1, 99, true, true⟩, 1⟩),
             (List.replicate 32 8, ⟨⟨List.replicate 32 8, 1, 99, true, true⟩, 9⟩)]
            0).get_path_by_pubkey)] :=
  ⟨(C4_remove_stale_rcs _ [] 5).1,
   (C4_remove_stale_rcs _ [] 5).2.2.2.2.2.1 (by decide) (by decide)⟩

theorem findEntry_emplace_of_some {tbl : List (RouterID × Entry)}
    {k : RouterID} {e : Entry} (pk : RouterID) (e' : Entry)
    (h : findEntry tbl k = some e) :
    findEntry (emplace tbl pk e') k = some e := by
  unfold emplace
  by_cases hs : (findEntry tbl pk).isSome
  · simp [hs, h]
  · simp only [hs, if_false, Bool.false_eq_true]
    exact findEntry_append_of_some _ h

theorem findEntry_emplace_self (tbl : List (RouterID × Entry)) (pk : RouterID)
    (e : Entry) :
    (findEntry (emplace tbl pk e) pk).isSome = true := by
  unfold emplace
  cases hf : findEntry tbl pk with
  | some e' => simp [hf]
  | none =>
    simp only [hf, Option.isSome_none, Bool.false_eq_true, if_false]
    rw [findEntry_append_of_none _ hf]
    simp [findEntry]

theorem findEntry_emplace_cases {tbl : List (RouterID × Entry)}
    {pk k : RouterID} {e e' : Entry}
    (h : findEntry (emplace tbl pk e') k = some e) :
    findEntry tbl k = some e ∨ (k = pk ∧ e = e') := by
  unfold emplace at h
  by_cases hs : (findEntry tbl pk).isSome
  · rw [if_pos hs] at h
    exact Or.inl h
  · rw [if_neg hs] at h
    have hnone : findEntry tbl pk = none := by
      cases hf : findEntry tbl pk with
      | none => rfl
      | some x => rw [hf] at hs; simp at hs
    by_cases hk : k = pk
    · subst hk
      rw [findEntry_append_of_none _ hnone] at h
      simp [findEntry] at h
      exact Or.inr ⟨rfl, h.symm⟩
    · cases hf : findEntry tbl k with
      | some x =>
        rw [findEntry_append_of_some _ hf] at h
        exact Or.inl h

      | none =>
        rw [findEntry_append_of_none _ hf] at h
        have : pk ≠ k := fun hc => hk hc.symm
        simp [findEntry, this] at h

theorem loadLoop_mono (files : List DiskFile) (now : Nat) :
    ∀ (acc : List (RouterID × Entry) × List FsPath) (k : RouterID) (e : Entry),
      findEntry acc.1 k = some e →
      findEntry (loadLoop acc files now).1 k = some e := by
  induction files with
  | nil => exact fun acc k e h => h
  | cons f rest ih =>
    intro acc k e h
    cases hout : load_file f.content now with
    | purge =>
      simp only [loadLoop, hout]
      exact ih _ k e h
    | skip =>
      simp only [loadLoop, hout]
      exact ih _ k e h
    | admitted rc =>
      simp only [loadLoop, hout]
      exact ih _ k e (findEntry_emplace_of_some _ _ h)

theorem loadLoop_spec (files : List DiskFile) (now : Nat) :
    ∀ (acc : List (RouterID × Entry) × List FsPath),
      (loadLoop acc files now).2 =
        acc.2 ++ (files.filter
          (fun f => decide (load_file f.content now = FileOutcome.purge))).map
          (fun f => f.path) ∧
      (∀ f ∈ files, ∀ rc, load_file f.content now = FileOutcome.admitted rc →
        (findEntry (loadLoop acc files now).1 rc.pubkey).isSome = true) ∧
      (∀ k e, findEntry (loadLoop acc files now).1 k = some e →
        findEntry acc.1 k = some e ∨
        ∃ f ∈ files, load_file f.content now = FileOutcome.admitted e.rc ∧
          k = e.rc.pubkey ∧ e.insertedAt = now) := by
  induction files with
  | nil =>
    intro acc
    refine ⟨by simp [loadLoop], by simp, fun k e h => Or.inl h⟩
  | cons f rest ih =>
    intro acc
    cases hout : load_file f.content now with
    | purge =>
      refine ⟨?_, ?_, ?_⟩
      · simp only [loadLoop, hout]
        rw [(ih _).1]
        simp [List.filter_cons, hout, List.append_assoc]
      · intro g hg rc hadm
        rcases List.mem_cons.mp hg with hgf | hgr
        · subst hgf
          rw [hout] at hadm
          cases hadm
        · simp only [loadLoop, hout]
          exact (ih _).2.1 g hgr rc hadm
      · intro k e h
        simp only [loadLoop, hout] at h
        rcases (ih _).2.2 k e h with hacc | ⟨g, hgr, hrest⟩
        · exact Or.inl hacc
        · exact Or.inr ⟨g, List.mem_cons_of_mem f hgr, hrest⟩
    | skip =>
      refine ⟨?_, ?_, ?_⟩
      · simp only [loadLoop, hout]
        rw [(ih _).1]
        simp [List.filter_cons, hout]
      · intro g hg rc hadm
        rcases List.mem_cons.mp hg with hgf | hgr
        · subst hgf
          rw [hout] at hadm
          cases hadm
        · simp only [loadLoop, hout]
          exact (ih _).2.1 g hgr rc hadm
      · intro k e h
        simp only [loadLoop, hout] at h
        rcases (ih _).2.2 k e h with hacc | ⟨g, hgr, hrest⟩
        · exact Or.inl hacc
        · exact Or.inr ⟨g, List.mem_cons_of_mem f hgr, hrest⟩
    | admitted rc =>
      refine ⟨?_, ?_, ?_⟩
      · simp only [loadLoop, hout]
        rw [(ih _).1]
        simp [List.filter_cons, hout]
      · intro g hg rc' hadm
        rcases List.mem_cons.mp hg with hgf | hgr
        · subst hgf
          rw [hout] at hadm
          cases hadm
          simp only [loadLoop, hout]
          cases hf : findEntry (emplace acc.1 rc.pubkey ⟨rc, now⟩) rc.pubkey with
          | none =>
            have := findEntry_emplace_self acc.1 rc.pubkey ⟨rc, now⟩
            rw [hf] at this
            simp at this
          | some e' =>
            rw [loadLoop_mono rest now _ rc.pubkey e' hf]
            rfl
        · simp only [loadLoop, hout]
          exact (ih _).2.1 g hgr rc' hadm
      · intro k e h
        simp only [loadLoop, hout] at h
        rcases (ih _).2.2 k e h with hacc | ⟨g, hgr, hrest⟩
        · rcases findEntry_emplace_cases hacc with hacc' | ⟨hk, he⟩
          · exact Or.inl hacc'
          · subst he
            exact Or.inr ⟨f, List.mem_cons_self f rest, by rw [hout], hk, rfl⟩
        · exact Or.inr ⟨g, List.mem_cons_of_mem f hgr, hrest⟩

/-- Claim C3 as stated is false on the code: the network-tag check runs
*before* the expiry and signature checks, so a file whose contact decodes,
is expired at the current time, but carries a foreign network tag is left
on disk (soft skip), while the claim's decision table demands it be
purged.  Concretely, an off-network contact with expiry time 5 processed
at time 10 is neither purged nor admitted. -/
theorem C3_counterexample :
    IsExpired ⟨List.replicate 32 10, 0, 5, true, false⟩ 10 = true ∧
    load_file (some ⟨List.replicate 32 10, 0, 5, true, false⟩) 10 =
      FileOutcome.skip ∧
    load_from_disk [⟨["a"], some ⟨List.replicate 32 10, 0, 5, true, false⟩⟩] 10 =
      ([], []) := by
  decide

/-- Claim C3, amended: the disk loader decides each candidate file in the
code's order — if decoding fails the file is purged; otherwise, if the
contact's network tag does not match the local network the file is left on
disk and the contact is not admitted (even if it is also expired or
carries an invalid signature); otherwise, if the contact is expired at the
current time, or its signature is invalid, the file is purged; otherwise
the contact is admitted to the table keyed by its identity key.  The
purged paths are exactly those of the files whose outcome is purge, and
the loaded table holds exactly contacts admitted by some file. -/
theorem C3_load_from_disk_decision (files : List DiskFile) (now : Nat) :
    (load_from_disk files now).2 =
      (files.filter
        (fun f => decide (load_file f.content now = FileOutcome.purge))).map
        (fun f => f.path) ∧
    (∀ f ∈ files, ∀ rc, load_file f.content now = FileOutcome.admitted rc →
      (findEntry (load_from_disk files now).1 rc.pubkey).isSome = true) ∧
    (∀ k e, findEntry (load_from_disk files now).1 k = some e →
      ∃ f ∈ files, load_file f.content now = FileOutcome.admitted e.rc ∧
        k = e.rc.pubkey ∧ e.insertedAt = now) ∧
    load_file none now = FileOutcome.purge ∧
    (∀ rc : RouterContact, rc.onNetwork = false →
      load_file (some rc) now = FileOutcome.skip) ∧
    (∀ rc : RouterContact, rc.onNetwork = true → IsExpired rc now = true →
      load_file (some rc) now = FileOutcome.purge) ∧
    (∀ rc : RouterContact, rc.onNetwork = true → IsExpired rc now = false →
      rc.sigOk = true → load_file (some rc) now = FileOutcome.admitted rc) ∧
    (∀ rc : RouterContact, rc.onNetwork = true → IsExpired rc now = false →
      rc.sigOk = false → load_file (some rc) now = FileOutcome.purge) := by
  refine ⟨?_, ?_, ?_, rfl, ?_, ?_, ?_, ?_⟩
  · have h := (loadLoop_spec files now ([], [])).1
    simpa [load_from_disk] using h
  · exact (loadLoop_spec files now ([], [])).2.1
  · intro k e h
    rcases (loadLoop_spec files now ([], [])).2.2 k e h with hacc | hex
    · simp [findEntry] at hacc
    · exact hex
  · intro rc h
    simp [load_file, h]
  · intro rc hn he
    simp [load_file, hn, he]
  · intro rc hn he hs
    simp [load_file, hn, he, hs]
  · intro rc hn he hs
    simp [load_file, hn, he, hs]

/-- Witness for the amended C3 at a concrete scan: one decode failure
(purged), one off-network file (left), one valid file (admitted). -/
theorem C3_witness :
    (findEntry
        (load_from_disk
          [⟨["bad"], none⟩,
           ⟨["foreign"], some ⟨List.replicate 32 11, 0, 99, true, false⟩⟩,
           ⟨["good"], some ⟨List.replicate 32 12, 0, 99, true, true⟩⟩] 10).1
        (List.replicate 32 12)).isSome = true ∧
    load_file (some ⟨List.replicate 32 11, 0, 99, true, false⟩) 10 =
      FileOutcome.skip :=
  ⟨(C3_load_from_disk_decision
      [⟨["bad"], none⟩,
       ⟨["foreign"], some ⟨List.replicate 32 11, 0, 99, true, false⟩⟩,
       ⟨["good"], some ⟨List.replicate 32 12, 0, 99, true, true⟩⟩] 10).2.1
      ⟨["good"], some ⟨List.replicate 32 12, 0, 99, true, true⟩⟩ (by decide)
      ⟨List.replicate 32 12, 0, 99, true, true⟩ (by decide),
   (C3_load_from_disk_decision
      [⟨["bad"], none⟩,
       ⟨["foreign"], some ⟨List.replicate 32 11, 0, 99, true, false⟩⟩,
       ⟨["good"], some ⟨List.replicate 32 12, 0, 99, true, true⟩⟩] 10).2.2.2.2.1
      ⟨List.replicate 32 11, 0, 99, true, false⟩ rfl⟩

theorem closestFold_spec (location : RouterID) :
    ∀ (l : List (RouterID × Entry)) (acc : RouterContact),
      isZero acc.pubkey = false →
      (∀ p ∈ l, isZero p.2.rc.pubkey = false) →
      (l.foldl (closestStep location) acc = acc ∨
        ∃ p ∈ l, l.foldl (closestStep location) acc = p.2.rc) ∧
      dist location (l.foldl (closestStep location) acc).pubkey ≤
        dist location acc.pubkey ∧
      ∀ p ∈ l, dist location (l.foldl (closestStep location) acc).pubkey ≤
        dist location p.2.rc.pubkey := by
  intro l
  induction l with
  | nil =>
    intro acc hacc hl
    exact ⟨Or.inl rfl, Nat.le_refl _, by simp⟩
  | cons p rest ih =>
    intro acc hacc hl
    have hp : isZero p.2.rc.pubkey = false := hl p (List.mem_cons_self p rest)
    have hrest : ∀ q ∈ rest, isZero q.2.rc.pubkey = false :=
      fun q hq => hl q (List.mem_cons_of_mem p hq)
    rw [List.foldl_cons]
    by_cases hlt : dist location p.2.rc.pubkey < dist location acc.pubkey
    · have hstep : closestStep location acc p = p.2.rc := by
        simp [closestStep, hacc, hlt]
      rw [hstep]
      rcases ih p.2.rc hp hrest with ⟨hmem, hle, hall⟩
      refine ⟨?_, ?_, ?_⟩
      · rcases hmem with heq | ⟨q, hq, heq⟩
        · exact Or.inr ⟨p, List.mem_cons_self p rest, heq⟩
        · exact Or.inr ⟨q, List.mem_cons_of_mem p hq, heq⟩
      · exact Nat.le_trans hle (Nat.le_of_lt hlt)
      · intro q hq
        rcases List.mem_cons.mp hq with hqp | hqr
        · rw [hqp]
          exact hle
        · exact hall q hqr
    · have hstep : closestStep location acc p = acc := by
        simp [closestStep, hacc, hlt]
      rw [hstep]
      rcases ih acc hacc hrest with ⟨hmem, hle, hall⟩
      refine ⟨?_, hle, ?_⟩
      · rcases hmem with heq | ⟨q, hq, heq⟩
        · exact Or.inl heq
        · exact Or.inr ⟨q, List.mem_cons_of_mem p hq, heq⟩
      · intro q hq
        rcases List.mem_cons.mp hq with hqp | hqr
        · rw [hqp]
          exact Nat.le_trans hle (Nat.le_of_not_lt hlt)
        · exact hall q hqr

/-- Claim C6 as stated is false on the code: the scan uses the all-zero
key as its "nothing yet" sentinel, so a table entry whose identifier is
the zero key poisons the scan — after it is taken, the next visited entry
replaces it unconditionally.  Concretely, for a table holding the zero key
(distance 0 from the zero target) followed by a key at distance 1,
`find_closest_to` returns the distance-1 entry although a strictly closer
entry is in the table. -/
theorem C6_counterexample :
    (NodeDB.find_closest_to
        (NodeDB.mk ["r"]
          [(List.replicate 32 0, ⟨⟨List.replicate 32 0, 1, 9, true, true⟩, 1⟩),
           (List.replicate 31 0 ++ [1],
             ⟨⟨List.replicate 31 0 ++ [1], 1, 9, true, true⟩, 1⟩)]
          0) (List.replicate 32 0)).1 =
      ⟨List.replicate 31 0 ++ [1], 1, 9, true, true⟩ ∧
    (List.replicate 32 0, ⟨⟨List.replicate 32 0, 1, 9, true, true⟩, 1⟩) ∈
      (NodeDB.mk ["r"]
        [(List.replicate 32 0, ⟨⟨List.replicate 32 0, 1, 9, true, true⟩, 1⟩),
         (List.replicate 31 0 ++ [1],
           ⟨⟨List.replicate 31 0 ++ [1], 1, 9, true, true⟩, 1⟩)]
        0).entries ∧
    dist (List.replicate 32 0)
        (⟨List.replicate 32 0, 1, 9, true, true⟩ : RouterContact).pubkey <
      dist (List.replicate 32 0)
        (⟨List.replicate 31 0 ++ [1], 1, 9, true, true⟩ : RouterContact).pubkey := by
  decide

/-- Claim C6, amended: for every non-empty table *all of whose entries
carry a nonzero identifier* (the all-zero key doubles as the scan's
empty sentinel), `closest_to(target)` returns the contact of some table
entry whose XOR distance to the target is minimal over all entries; for
the empty table it returns the sentinel default contact with the zero
key. -/
theorem C6_find_closest_to_min (s : NodeDB) (location : RouterID) :
    (s.entries ≠ [] → (∀ p ∈ s.entries, isZero p.2.rc.pubkey = false) →
      (∃ p ∈ s.entries, (s.find_closest_to location).1 = p.2.rc) ∧
      ∀ p ∈ s.entries,
        dist location (s.find_closest_to location).1.pubkey ≤
          dist location p.2.rc.pubkey) ∧
    (s.entries = [] → (s.find_closest_to location).1 = emptyRC) := by
  constructor
  · intro hne hz
    cases hl : s.entries with
    | nil => exact absurd hl hne
    | cons p rest =>
      rw [hl] at hz
      have hp : isZero p.2.rc.pubkey = false := hz p (List.mem_cons_self p rest)
      have hrest : ∀ q ∈ rest, isZero q.2.rc.pubkey = false :=
        fun q hq => hz q (List.mem_cons_of_mem p hq)
      have hzero : isZero emptyRC.pubkey = true := by decide
      have hstep : closestStep location emptyRC p = p.2.rc := by
        simp [closestStep, hzero]
      have hres : (s.find_closest_to location).1 =
          rest.foldl (closestStep location) p.2.rc := by
        simp [NodeDB.find_closest_to, hl, hstep]
      rcases closestFold_spec location rest p.2.rc hp hrest with ⟨hmem, hle, hall⟩
      constructor
      · rw [hres]
        rcases hmem with heq | ⟨q, hq, heq⟩
        · exact ⟨p, List.mem_cons_self p rest, heq⟩
        · exact ⟨q, List.mem_cons_of_mem p hq, heq⟩
      · intro q hq
        rw [hres]
        rcases List.mem_cons.mp hq with hqp | hqr
        · rw [hqp]
          exact hle
        · exact hall q hqr
  · intro h
    simp [NodeDB.find_closest_to, h]

/-- Witness for the amended C6 at a concrete two-entry table with nonzero
identifiers: the returned contact is at minimal distance to the visited
entries. -/
theorem C6_witness :
    dist (List.replicate 32 0)
        ((NodeDB.mk ["r"]
            [(List.replicate 31 0 ++ [2],
               ⟨⟨List.replicate 31 0 ++ [2], 1, 9, true, true⟩, 1⟩),
             (List.replicate 31 0 ++ [1],
               ⟨⟨List.replicate 31 0 ++ [1], 1, 9, true, true⟩, 1⟩)]
            0).find_closest_to (List.replicate 32 0)).1.pubkey ≤
      dist (List.replicate 32 0)
        (⟨List.replicate 31 0 ++ [2], 1, 9, true, true⟩ : RouterContact).pubkey :=
  ((C6_find_closest_to_min
      (NodeDB.mk ["r"]
        [(List.replicate 31 0 ++ [2],
           ⟨⟨List.replicate 31 0 ++ [2], 1, 9, true, true⟩, 1⟩),
         (List.replicate 31 0 ++ [1],
           ⟨⟨List.replicate 31 0 ++ [1], 1, 9, true, true⟩, 1⟩)]
        0) (List.replicate 32 0)).1 (by decide) (by decide)).2
    (List.replicate 31 0 ++ [2],
      ⟨⟨List.replicate 31 0 ++ [2], 1, 9, true, true⟩, 1⟩) (by decide)

/-- Claim C7: `k_closest_to(target, k)` returns `min(k, table size)`
contacts drawn from the table, in ascending order of XOR distance to the
target, and every returned contact is at distance less than or equal to
the distance of every table entry not returned (the non-returned entries
being the remainder of the distance-sorted permutation of the table);
when the table has fewer than `k` entries all entries are returned. -/
theorem C7_find_many_closest_to (s : NodeDB) (location : RouterID) (k : Nat) :
    (s.find_many_closest_to location k).1.length = min k s.entries.length ∧
    (∀ rc ∈ (s.find_many_closest_to location k).1,
      ∃ p ∈ s.entries, rc = p.2.rc) ∧
    List.Sorted (rcLe location) (s.find_many_closest_to location k).1 ∧
    List.Perm
      ((s.find_many_closest_to location k).1 ++
        (List.insertionSort (rcLe location)
          (s.entries.map fun p => p.2.rc)).drop k)
      (s.entries.map fun p => p.2.rc) ∧
    ∀ a ∈ (s.find_many_closest_to location k).1,
      ∀ b ∈ (List.insertionSort (rcLe location)
        (s.entries.map fun p => p.2.rc)).drop k,
      rcLe location a b := by
  haveI : IsTotal RouterContact (rcLe location) :=
    ⟨fun a b => Nat.le_total (dist location a.pubkey) (dist location b.pubkey)⟩
  haveI : IsTrans RouterContact (rcLe location) :=
    ⟨fun a b c hab hbc => Nat.le_trans hab hbc⟩
  have hres : (s.find_many_closest_to location k).1 =
      (List.insertionSort (rcLe location)
        (s.entries.map fun p => p.2.rc)).take k := rfl
  have hsorted :=
    List.sorted_insertionSort (rcLe location) (s.entries.map fun p => p.2.rc)
  have hperm :=
    List.perm_insertionSort (rcLe location) (s.entries.map fun p => p.2.rc)
  refine ⟨?_, ?_, ?_, ?_, ?_⟩
  · rw [hres, List.length_take, hperm.length_eq, List.length_map]
  · intro rc hrc
    rw [hres] at hrc
    have hmem : rc ∈ (s.entries.map fun p => p.2.rc) :=
      hperm.mem_iff.mp (List.mem_of_mem_take hrc)
    rcases List.mem_map.mp hmem with ⟨p, hp, heq⟩
    exact ⟨p, hp, heq.symm⟩
  · rw [hres]
    exact List.Pairwise.sublist (List.take_sublist k _) hsorted
  · rw [hres, List.take_append_drop]
    exact hperm
  · intro a ha b hb
    rw [hres] at ha
    have h := hsorted
    rw [← List.take_append_drop k (List.insertionSort (rcLe location)
      (s.entries.map fun p => p.2.rc))] at h
    exact (List.pairwise_append.mp h).2.2 a ha b hb

/-- Witness for C7 at a concrete two-entry table with `k = 1`: the one
returned contact is no farther from the target than the one left out. -/
theorem C7_witness :
    rcLe (List.replicate 32 0)
      ⟨List.replicate 31 0 ++ [1], 1, 9, true, true⟩
      ⟨List.replicate 31 0 ++ [2], 1, 9, true, true⟩ :=
  (C7_find_many_closest_to
      (NodeDB.mk ["r"]
        [(List.replicate 31 0 ++ [2],
           ⟨⟨List.replicate 31 0 ++ [2], 1, 9, true, true⟩, 1⟩),
         (List.replicate 31 0 ++ [1],
           ⟨⟨List.replicate 31 0 ++ [1], 1, 9, true, true⟩, 1⟩)]
        0) (List.replicate 32 0) 1).2.2.2.2
    ⟨List.replicate 31 0 ++ [1], 1, 9, true, true⟩ (by decide)
    ⟨List.replicate 31 0 ++ [2], 1, 9, true, true⟩ (by decide)
